import Mathlib

/-!
Shallow embedding of the Real-Time-Twitter-Analysis repository
(src/config.py, src/dataExtraction.py, src/app.py, src/locationCreation.py)
and proofs about the claims of its specification.

Python floats appearing in the claims are modelled by rationals (ℚ), with an
explicit four-valued type (finite / +inf / -inf / NaN) where IEEE special
values matter (the percent-change division).  Python `None` is modelled by
`Option`.  Fallible dictionary accesses are modelled by `Except`.
-/

namespace Twitter

/-- Embedding of `polarity_change` (src/config.py lines 43-50, duplicated in
src/dataExtraction.py lines 52-59): negative scores map to -1, positive to 1,
zero to 0. -/
def polarity_change (polarity : ℚ) : ℚ :=
  if polarity < 0 then -1
  else if polarity > 0 then 1
  else 0

/-- Predicate for 7-bit ASCII characters, the ones kept by Python's
`encode('ascii', 'ignore')`. -/
def isAsciiChar (c : Char) : Bool := c.toNat < 128

/-- Embedding of `deEmojify` (src/config.py lines 28-35, duplicated in
src/dataExtraction.py lines 37-44).  Python's `if text:` is false exactly for
`None` and the empty string, in which case `None` is returned; otherwise all
non-ASCII characters are dropped. -/
def deEmojify (text : Option String) : Option String :=
  match text with
  | none => none
  | some t => if t = "" then none else some (String.mk (t.data.filter isAsciiChar))

/-- Word characters of the regex class `\w`, restricted to ASCII: letters,
digits and underscore.  Python's `\w` on a `str` pattern is Unicode-aware,
but it agrees with this predicate on every ASCII character, and ASCII text is
the only text `hastag` ever receives in this program: it is applied
(src/app.py lines 355-358) to the stored `text` column, which `deEmojify`
stripped to ASCII at ingestion.  Statements about `hastag` are therefore
scoped to ASCII inputs, where this embedding is exact. -/
def isWordChar (c : Char) : Bool := c.isAlpha || c.isDigit || c = '_'

/-- Scanner state for the regex search: either scanning for the next `'#'`
(remembering the previous character, `none` at the start of the string), or
collecting the run of word characters after a matched `'#'` (in reverse). -/
inductive ScanMode where
  | scanning (prev : Option Char)
  | collecting (acc : List Char)

/-- Truth of the regex's `\B` before a `'#'`: `'#'` is not a word character,
so the position is a non-boundary exactly when the previous character is not a
word character (or the position is the start of the string). -/
def notWordBefore : Option Char → Bool
  | none => true
  | some p => !isWordChar p

/-- Finish a candidate match: the greedy body `\w*[a-zA-Z]+\w*` matches the
whole collected run exactly when the run contains at least one letter.
`re.findall` has no capture group in this pattern, so an emitted match keeps
its leading `'#'`. -/
def emitRun (acc : List Char) : List (List Char) :=
  if acc.any Char.isAlpha then [('#' :: acc.reverse)] else []

/-- Scanner for `re.findall(r'\B#\w*[a-zA-Z]+\w*', text)` used by `hastag`
(src/config.py lines 19-20).  A match starts at a `'#'` whose previous
character is not a word character (`\B`), extends over the maximal run of
word characters after the `'#'`, and succeeds when that run contains at least
one letter; scanning resumes right after the match, and positions inside the
run cannot start a new match because a match must start at a `'#'`. -/
def hastagAux : ScanMode → List Char → List (List Char)
  | mode, [] =>
    match mode with
    | .scanning _ => []
    | .collecting acc => emitRun acc
  | mode, c :: rest =>
    match mode with
    | .scanning prev =>
      if c == '#' && notWordBefore prev then
        hastagAux (.collecting []) rest
      else
        hastagAux (.scanning (some c)) rest
    | .collecting acc =>
      if isWordChar c then
        hastagAux (.collecting (c :: acc)) rest
      else if c == '#' && acc.isEmpty then
        emitRun acc ++ hastagAux (.collecting []) rest
      else
        emitRun acc ++ hastagAux (.scanning (some c)) rest

/-- Embedding of `hastag` (src/config.py lines 19-20):
`re.findall(r'\B#\w*[a-zA-Z]+\w*', text)`.  Exact for ASCII input texts (see
`isWordChar` for why that is the domain this program uses it on). -/
def hastag (text : String) : List String :=
  (hastagAux (.scanning none) text.data).map String.mk

/-- Specification-level description of the hashtag matches, following the
spec's words: every position of the text, visited in order, contributes one
match exactly when it holds a `'#'` not preceded by a word character whose
following maximal word-character run contains at least one letter; the match
is that `'#'` with its run, duplicates retained.  For this pattern no match
can start strictly inside another (a match starts at `'#'`, and the interior
of a match consists of word characters), so enumerating every position is
equivalent to `re.findall`'s non-overlapping left-to-right scan. -/
def hashtagsSpecAux (prev : Option Char) : List Char → List (List Char)
  | [] => []
  | c :: rest =>
    (if c == '#' && notWordBefore prev && (rest.takeWhile isWordChar).any Char.isAlpha
      then [('#' :: rest.takeWhile isWordChar)] else [])
    ++ hashtagsSpecAux (some c) rest

/-- Specification-level hashtag extraction: all matching substrings, in order
of first appearance, duplicates retained, each with its leading `'#'`. -/
def hastagSpec (text : String) : List String :=
  (hashtagsSpecAux none text.data).map String.mk

/-- Embedding of the nested `retweeted_status` object of a stream event:
`extended_tweet` is `some full_text` exactly when
`hasattr(status.retweeted_status, 'extended_tweet')` holds. -/
structure RetweetedStatus where
  extended_tweet : Option String

/-- Embedding of the stream event (`status`) consumed by
`MyStreamListener.on_status` (src/dataExtraction.py lines 75-123), restricted
to the attributes that method reads.  `extended_tweet` is `some full_text`
exactly when `hasattr(status, 'extended_tweet')` holds, and
`retweeted_status` is `some rs` exactly when
`hasattr(status, 'retweeted_status')` holds. -/
structure Status where
  retweeted : Bool
  id_str : String
  created_at : String
  text : String
  extended_tweet : Option String
  retweeted_status : Option RetweetedStatus
  user_created_at : String
  user_location : Option String
  user_description : Option String
  user_followers_count : ℕ
  coordinates : Option (ℚ × ℚ)
  retweet_count : ℕ
  favorite_count : ℕ

/-- Embedding of one row of the `Tweets` table as inserted by `on_status`
(src/dataExtraction.py lines 116-123). -/
structure Row where
  id_str : String
  created_at : String
  text : Option String
  polarity : ℚ
  subjectivity : ℚ
  user_created_at : String
  user_location : Option String
  user_description : Option String
  user_followers_count : ℕ
  longitude : Option ℚ
  latitude : Option ℚ
  retweet_count : ℕ
  favorite_count : ℕ

/-- Embedding of the text-selection chain of `on_status`
(src/dataExtraction.py lines 87-91): start from `status.text`, overwrite it
with `status.extended_tweet['full_text']` when that attribute exists, then
overwrite it again with `status.retweeted_status.extended_tweet['full_text']`
when both of those attributes exist. -/
def selectText (status : Status) : String :=
  let text := status.text
  let text := match status.extended_tweet with
    | some full_text => full_text
    | none => text
  match status.retweeted_status with
  | some rs =>
    match rs.extended_tweet with
    | some full_text => full_text
    | none => text
  | none => text

/-- Embedding of the row built by `on_status` (src/dataExtraction.py lines
82-120).  The sentiment analyzer (`TextBlob(text).sentiment`) is an external
collaborator, passed in as a function from the processed text to the pair
(polarity, subjectivity). -/
def extractRow (sentiment : Option String → ℚ × ℚ) (status : Status) : Row :=
  let text := deEmojify (some (selectText status))
  { id_str := status.id_str
    created_at := status.created_at
    text := text
    polarity := (sentiment text).1
    subjectivity := (sentiment text).2
    user_created_at := status.user_created_at
    user_location := deEmojify status.user_location
    user_description := deEmojify status.user_description
    user_followers_count := status.user_followers_count
    longitude := status.coordinates.map Prod.fst
    latitude := status.coordinates.map Prod.snd
    retweet_count := status.retweet_count
    favorite_count := status.favorite_count }

/-- Embedding of `MyStreamListener.on_status` (src/dataExtraction.py lines
75-123), returning the list of rows the handler inserts into the `Tweets`
table for the given event: none when `status.retweeted` holds (the early
return at line 81), and exactly the one extracted row otherwise (the
module-level `conn` is a live connection object, so the `if conn:` guard at
line 116 is satisfied). -/
def on_status (sentiment : Option String → ℚ × ℚ) (status : Status) : List Row :=
  if status.retweeted then []
  else [extractRow sentiment status]

/-- Four-valued result type modelling an IEEE-754 double: a finite value,
one of the two infinities, or NaN. -/
inductive FloatVal where
  | finite (q : ℚ)
  | posInf
  | negInf
  | nan
deriving DecidableEq

/-- IEEE-style division as performed by numpy's true division on the scalar
counts: a nonzero value divided by zero gives a signed infinity with a
runtime warning (not an exception), and 0/0 gives NaN. -/
def divFloat (a b : ℚ) : FloatVal :=
  if b = 0 then
    if a = 0 then FloatVal.nan
    else if a > 0 then FloatVal.posInf
    else FloatVal.negInf
  else FloatVal.finite (a / b)

/-- IEEE-style multiplication of the division result by a finite constant. -/
def mulFloat (x : FloatVal) (c : ℚ) : FloatVal :=
  match x with
  | FloatVal.finite q => FloatVal.finite (q * c)
  | FloatVal.posInf =>
    if c > 0 then FloatVal.posInf else if c < 0 then FloatVal.negInf else FloatVal.nan
  | FloatVal.negInf =>
    if c > 0 then FloatVal.negInf else if c < 0 then FloatVal.posInf else FloatVal.nan
  | FloatVal.nan => FloatVal.nan

/-- Embedding of `count_now` (src/app.py line 175): the number of rows whose
`created_at` lies strictly after `min10`.  Timestamps are modelled as
rationals. -/
def count_now (times : List ℚ) (min10 : ℚ) : ℕ :=
  (times.filter (fun t => min10 < t)).length

/-- Embedding of `count_before` (src/app.py line 176): the number of rows
whose `created_at` lies strictly between `min20` and `min10`. -/
def count_before (times : List ℚ) (min20 min10 : ℚ) : ℕ :=
  (times.filter (fun t => decide (min20 < t) && decide (t < min10))).length

/-- Embedding of the percent-change computation (src/app.py line 177):
`(count_now - count_before) / count_before * 100`, with the counts as numpy
integer scalars, so that the division follows IEEE semantics. -/
def percentChange (now before : ℕ) : FloatVal :=
  mulFloat (divFloat ((now : ℚ) - (before : ℚ)) (before : ℚ)) 100

/-- A stored row as seen by the time-bucketed sentiment series, reduced to
the two columns the grouping uses: the timestamp (in whole seconds) and the
already-bucketed polarity. -/
structure SentRow where
  created_at : ℕ
  polarity : ℤ

/-- Floor of a timestamp to its 10-second bucket, as `pd.Grouper(freq='10s')`
aligns bins on multiples of 10 seconds. -/
def bucket10 (t : ℕ) : ℕ := t / 10 * 10

/-- Insertion into a sorted list, used to model the sorted group keys that
pandas `groupby` produces. -/
def insertSorted [LinearOrder α] (x : α) : List α → List α
  | [] => [x]
  | y :: ys => if x ≤ y then x :: y :: ys else y :: insertSorted x ys

/-- Insertion sort, used to model the sorted group keys of pandas `groupby`. -/
def sortList [LinearOrder α] : List α → List α
  | [] => []
  | x :: xs => insertSorted x (sortList xs)

/-- Sorted distinct values of a list: the group keys pandas produces for one
grouping level, restricted to values observed in the data. -/
def sortedKeys [LinearOrder α] [DecidableEq α] (l : List α) : List α :=
  sortList l.dedup

/-- Distinct 10-second buckets observed in the windowed rows.  Grouping by
`[pd.Grouper(key='created_at', freq='10s'), 'polarity']` keeps only the
(bucket, polarity) combinations that occur in the data, so only buckets
containing at least one row appear. -/
def obsBuckets (rows : List SentRow) : List ℕ :=
  sortedKeys (rows.map (fun r => bucket10 r.created_at))

/-- Distinct polarity values observed in the windowed rows.
`.unstack(fill_value=0)` creates one column per polarity value present in the
grouped index — polarity classes absent from the whole window produce no
column. -/
def obsPolarities (rows : List SentRow) : List ℤ :=
  sortedKeys (rows.map (fun r => r.polarity))

/-- Number of windowed rows falling in the given 10-second bucket with the
given polarity. -/
def bucketCount (rows : List SentRow) (b : ℕ) (p : ℤ) : ℕ :=
  rows.countP (fun r => bucket10 r.created_at == b && r.polarity == p)

/-- Embedding of the time-bucketed sentiment series (src/app.py line 158):
`df.groupby([pd.Grouper(key='created_at', freq='10s'), 'polarity']).count()
.unstack(fill_value=0).stack()`.  The result has one entry per pair in the
cross-product of the observed buckets and the observed polarity values, the
zero-filled pairs included. -/
def sentimentSeries (rows : List SentRow) : List (ℕ × ℤ × ℕ) :=
  ((obsBuckets rows).map (fun b =>
    (obsPolarities rows).map (fun p => (b, p, bucketCount rows b p)))).flatten

/-- Substring test, modelling Python's `s in x` on strings (character lists):
true when `s` occurs contiguously inside `x`. -/
def containsSub (s : List Char) : List Char → Bool
  | [] => s.isEmpty
  | c :: rest => s.isPrefixOf (c :: rest) || containsSub s rest

/-- Embedding of the inner scan of `update_graph_bottom_live` (src/app.py
lines 370-375): the first place name of `STATES`, in list order, that occurs
as a substring of the row's free-text location. -/
def matchState (states : List String) (x : String) : Option String :=
  states.find? (fun s => containsSub s.data x.data)

/-- Embedding of `STATE_DICT[s] if s in STATE_DICT else s` (src/app.py line
373): the region code of a matched place name, falling back to the place
name itself when the lookup has no entry. -/
def stateCode (state_dict : List (String × String)) (s : String) : String :=
  match state_dict.lookup s with
  | some code => code
  | none => s

/-- Contribution of one row's free-text location to `is_in_US` (src/app.py
lines 369-377): the region code of the first matching place name, or `none`
(Python `None`) when no place name matches. -/
def matchLocation (states : List String) (state_dict : List (String × String))
    (x : String) : Option String :=
  match matchState states x with
  | some s => some (stateCode state_dict s)
  | none => none

/-- Embedding of the `is_in_US` list built by the row loop (src/app.py lines
366-377): one entry per row, in row order. -/
def is_in_US (states : List String) (state_dict : List (String × String))
    (locations : List String) : List (Option String) :=
  locations.map (matchLocation states state_dict)

/-- Embedding of `.dropna()` on the `is_in_US` column (src/app.py line 379):
the region codes of the matched rows, unmatched rows excluded. -/
def geoCodes (states : List String) (state_dict : List (String × String))
    (locations : List String) : List String :=
  (is_in_US states state_dict locations).filterMap id

/-- Distinct region codes after `groupby('State')` (src/app.py line 380). -/
def geoStates (states : List String) (state_dict : List (String × String))
    (locations : List String) : List String :=
  (geoCodes states state_dict locations).dedup

/-- Number of rows counted under one region code by
`groupby('State').count()` (src/app.py line 380). -/
def geoCount (states : List String) (state_dict : List (String × String))
    (locations : List String) (code : String) : ℕ :=
  (geoCodes states state_dict locations).count code

/-- Embedding of the unguarded dictionary access `INV_STATE_DICT[x]`
(src/app.py line 385): a missing key raises `KeyError`, which aborts the
whole callback; modelled as `Except.error` carrying the missing key. -/
def fullStateName (inv : List (String × String)) (code : String) :
    Except String String :=
  match inv.lookup code with
  | some name => Except.ok name
  | none => Except.error code

/-- Application of a fallible function to every list element in order,
stopping at the first error — the behavior of `Series.apply` when the applied
function raises. -/
def mapExcept (f : α → Except ε β) : List α → Except ε (List β)
  | [] => Except.ok []
  | x :: xs =>
    match f x with
    | Except.error e => Except.error e
    | Except.ok b =>
      match mapExcept f xs with
      | Except.error e => Except.error e
      | Except.ok bs => Except.ok (b :: bs)

/-- Embedding of the geographic aggregation tail of `update_graph_bottom_live`
(src/app.py lines 379-385): group the matched region codes, count rows per
code, and attach the canonical region name via the unguarded
`INV_STATE_DICT[x]` access.  A region code missing from the inverse lookup
makes the whole pass fail with that key. -/
def geo_dist (states : List String) (state_dict inv : List (String × String))
    (locations : List String) : Except String (List (String × ℕ × String)) :=
  mapExcept
    (fun code =>
      (fullStateName inv code).map
        (fun name => (code, geoCount states state_dict locations code, name)))
    (geoStates states state_dict locations)

/-- Sample non-repost event used by concrete witnesses. -/
def sampleStatus : Status :=
  { retweeted := false
    id_str := "1247"
    created_at := "2020-04-05 10:00:00"
    text := "truncated text"
    extended_tweet := none
    retweeted_status := none
    user_created_at := "2015-01-01 00:00:00"
    user_location := some "Austin, Texas"
    user_description := none
    user_followers_count := 10
    coordinates := none
    retweet_count := 0
    favorite_count := 0 }

/-- Sample sentiment collaborator used by concrete witnesses. -/
def sampleSentiment : Option String → ℚ × ℚ := fun _ => (0, 0)

/-- Event carrying both its own extended text and a reposted-from extended
text, exercising the overwrite order of src/dataExtraction.py lines 87-91. -/
def bothTextsStatus : Status :=
  { sampleStatus with
    text := "truncated text"
    extended_tweet := some "original full text"
    retweeted_status := some { extended_tweet := some "reposted full text" } }

/-- Rows at T, T+5s and T+12s, all with polarity 0 (the example of the
claim about the bucketed sentiment series), with T = 0. -/
def exRowsC6 : List SentRow := [⟨0, 0⟩, ⟨5, 0⟩, ⟨12, 0⟩]

/-- Rows exhibiting a zero-filled entry of the bucketed sentiment series:
bucket 0 contains no row of polarity 1, yet polarity 1 is observed. -/
def exRowsC6b : List SentRow := [⟨0, 0⟩, ⟨12, 1⟩]

end Twitter

open Twitter

/-- C8: for every polarity score p, `polarity_change p` returns -1 iff p < 0,
1 iff p > 0 and 0 iff p = 0. -/
theorem C8_bucketPolarity_trichotomy (p : ℚ) :
    (polarity_change p = -1 ↔ p < 0) ∧
    (polarity_change p = 1 ↔ p > 0) ∧
    (polarity_change p = 0 ↔ p = 0) := by
  rcases lt_trichotomy p 0 with h | h | h
  · simp only [polarity_change, if_pos h]
    norm_num [h, not_lt.mpr (le_of_lt h), ne_of_lt h]
  · subst h
    norm_num [polarity_change]
  · simp only [polarity_change, if_neg (not_lt.mpr (le_of_lt h)), if_pos h]
    norm_num [h, not_lt.mpr (le_of_lt h), ne_of_gt h]

/-- C10: `polarity_change` is idempotent, so re-bucketing the stored polarity
values (as `update_graph_live` does at src/app.py line 152) never changes a
value. -/
theorem C10_bucketPolarity_idempotent (p : ℚ) :
    polarity_change (polarity_change p) = polarity_change p := by
  unfold polarity_change
  rcases lt_trichotomy p 0 with h | h | h
  · simp [h]
  · simp [h]
  · simp [not_lt.mpr (le_of_lt h), h]

/-- C9: a non-empty input all of whose characters are non-ASCII is mapped by
`deEmojify` to the empty string, not to `None`; the `None` result occurs
exactly when the input is `None` or the empty string. -/
theorem C9_deEmojify_empty_not_null :
    (∀ s : String, s ≠ "" →
      (∀ c ∈ s.data, ¬ isAsciiChar c) → deEmojify (some s) = some "") ∧
    (∀ t : Option String, deEmojify t = none ↔ (t = none ∨ t = some "")) := by
  constructor
  · intro s hne hall
    have hfil : s.data.filter isAsciiChar = [] := by
      rw [List.filter_eq_nil_iff]
      intro c hc
      simpa using hall c hc
    simp [deEmojify, hne, hfil]
  · intro t
    match t with
    | none => simp [deEmojify]
    | some s =>
      by_cases h : s = ""
      · simp [deEmojify, h]
      · simp [deEmojify, h]

/-- Witness for C9 at the emoji-only string "😀" and at `None`. -/
theorem C9_witness :
    deEmojify (some "😀") = some "" ∧ (deEmojify none = none ↔ (none = (none : Option String) ∨ none = some "")) := by
  refine ⟨C9_deEmojify_empty_not_null.1 "😀" (by decide) (by decide), C9_deEmojify_empty_not_null.2 none⟩

/-- C1: an event flagged as a repost (`status.retweeted`) produces no row in
the `Tweets` table — `on_status` returns before the insert — while a
non-repost event inserts exactly one row. -/
theorem C1_repost_discard (sentiment : Option String → ℚ × ℚ) (status : Status) :
    (status.retweeted = true → on_status sentiment status = []) ∧
    (status.retweeted = false → (on_status sentiment status).length = 1) := by
  constructor
  · intro h
    simp [on_status, h]
  · intro h
    simp [on_status, h]

/-- Witness for C1 at a concrete repost event and a concrete original event. -/
theorem C1_witness :
    (({ sampleStatus with retweeted := true } : Status).retweeted = true ∧
      on_status sampleSentiment { sampleStatus with retweeted := true } = []) ∧
    (sampleStatus.retweeted = false ∧
      (on_status sampleSentiment sampleStatus).length = 1) :=
  ⟨⟨rfl, (C1_repost_discard sampleSentiment _).1 rfl⟩,
   ⟨rfl, (C1_repost_discard sampleSentiment sampleStatus).2 rfl⟩⟩

/-- C2 counterexample: on an event that carries both its own extended text and
a reposted-from extended text, `on_status` keeps the reposted-from text — the
assignment at src/dataExtraction.py lines 90-91 runs after the one at lines
88-89 — so the original post's text does not win. -/
theorem C2_counterexample :
    bothTextsStatus.extended_tweet = some "original full text" ∧
    selectText bothTextsStatus = "reposted full text" ∧
    selectText bothTextsStatus ≠ "original full text" := by
  refine ⟨rfl, rfl, ?_⟩
  decide

/-- C2 amended: the stored text (also the sentiment input) is the
reposted-from post's extended text when one is available; otherwise the
event's own extended/full text is preferred over the truncated text. -/
theorem C2_text_selection_amended (sentiment : Option String → ℚ × ℚ) (status : Status) :
    (∀ rs full_text, status.retweeted_status = some rs →
      rs.extended_tweet = some full_text → selectText status = full_text) ∧
    ((∀ rs, status.retweeted_status = some rs → rs.extended_tweet = none) →
      (∀ full_text, status.extended_tweet = some full_text →
        selectText status = full_text) ∧
      (status.extended_tweet = none → selectText status = status.text)) ∧
    (extractRow sentiment status).text = deEmojify (some (selectText status)) ∧
    (extractRow sentiment status).polarity
      = (sentiment (deEmojify (some (selectText status)))).1 := by
  refine ⟨?_, ?_, rfl, rfl⟩
  · intro rs full_text hrs hext
    simp [selectText, hrs, hext]
  · intro hno
    constructor
    · intro full_text hext
      cases h : status.retweeted_status with
      | none => simp [selectText, h, hext]
      | some rs =>
        have hrs := hno rs h
        simp [selectText, h, hrs, hext]
    · intro hext
      cases h : status.retweeted_status with
      | none => simp [selectText, h, hext]
      | some rs =>
        have hrs := hno rs h
        simp [selectText, h, hrs, hext]

/-- Witness for C2 at the two-text event and at an event with no extended
texts at all. -/
theorem C2_witness :
    (bothTextsStatus.retweeted_status
        = some ({ extended_tweet := some "reposted full text" } : RetweetedStatus) ∧
      selectText bothTextsStatus = "reposted full text") ∧
    (sampleStatus.extended_tweet = none ∧ selectText sampleStatus = sampleStatus.text) :=
  ⟨⟨rfl, (C2_text_selection_amended sampleSentiment bothTextsStatus).1 _ _ rfl rfl⟩,
   ⟨rfl, ((C2_text_selection_amended sampleSentiment sampleStatus).2.1
      (fun rs h => by simp [sampleStatus] at h)).2 rfl⟩⟩

/-- C3 counterexample: with prior-window count 0 and current-window count 5
the percent-change expression of src/app.py line 177 evaluates, under the
IEEE semantics of numpy's true division, to +infinity — it does produce an
infinity rather than a defined "no prior data" result. -/
theorem C3_counterexample : percentChange 5 0 = FloatVal.posInf := by
  have h : divFloat (((5 : ℕ) : ℚ) - ((0 : ℕ) : ℚ)) (((0 : ℕ) : ℚ)) = FloatVal.posInf := by
    unfold divFloat
    norm_num
  unfold percentChange
  rw [h]
  norm_num [mulFloat]

/-- C3 amended: when the prior 10-minute window holds 0 rows and the current
10-minute window holds a positive number of rows, the percent-change
computation raises no exception but returns +infinity (there is no "no prior
data" result in the code). -/
theorem C3_percent_change_amended (times : List ℚ) (min20 min10 : ℚ)
    (hb : count_before times min20 min10 = 0) (hn : 0 < count_now times min10) :
    percentChange (count_now times min10) (count_before times min20 min10)
      = FloatVal.posInf := by
  rw [hb]
  have hpos : (0 : ℚ) < (count_now times min10 : ℚ) := by exact_mod_cast hn
  have h : divFloat ((count_now times min10 : ℚ) - ((0 : ℕ) : ℚ)) (((0 : ℕ) : ℚ))
      = FloatVal.posInf := by
    unfold divFloat
    simp only [Nat.cast_zero, sub_zero, eq_self_iff_true, if_true]
    rw [if_neg (ne_of_gt hpos), if_pos hpos]
  unfold percentChange
  rw [h]
  norm_num [mulFloat]

/-- Witness for C3 at a window with one current row and no prior rows. -/
theorem C3_witness :
    count_before [10] 0 5 = 0 ∧ 0 < count_now [10] 5 ∧
    percentChange (count_now [10] 5) (count_before [10] 0 5) = FloatVal.posInf :=
  ⟨by decide, by decide, C3_percent_change_amended [10] 0 5 (by decide) (by decide)⟩

/-- C4 counterexample: one row whose location matches the known place name
"Texas" (mapped to code "USA") while the inverse lookup is empty makes the
geographic aggregation of `update_graph_bottom_live` fail with a `KeyError`
on "USA" — the pass crashes instead of skipping the row. -/
theorem C4_counterexample :
    geo_dist ["Texas"] [("Texas", "USA")] [] ["Austin, Texas"]
      = Except.error "USA" := rfl

theorem mapExcept_error {α ε β : Type} {f : α → Except ε β} :
    ∀ {l : List α} {x : α}, x ∈ l → (∃ e, f x = Except.error e) →
      ∃ e, mapExcept f l = Except.error e := by
  intro l
  induction l with
  | nil =>
    intro x hx _
    cases hx
  | cons y ys ih =>
    intro x hx he
    obtain ⟨e, hfe⟩ := he
    unfold mapExcept
    cases hfy : f y with
    | error e2 => exact ⟨e2, by simp [hfy]⟩
    | ok b =>
      rcases List.mem_cons.mp hx with rfl | hmem
      · rw [hfy] at hfe
        cases hfe
      · obtain ⟨e3, he3⟩ := ih hmem ⟨e, hfe⟩
        exact ⟨e3, by simp [hfy, he3]⟩

/-- C4 amended: a matched region code with no entry in the inverse lookup
aborts the whole aggregation pass with an error (the `KeyError` of
`INV_STATE_DICT[x]`); the row is not skipped and the pass does not complete. -/
theorem C4_geo_missing_inverse_amended (states : List String)
    (state_dict inv : List (String × String)) (locations : List String)
    (code : String) (hc : code ∈ geoStates states state_dict locations)
    (hmiss : inv.lookup code = none) :
    ∃ e, geo_dist states state_dict inv locations = Except.error e := by
  apply mapExcept_error hc
  exact ⟨code, by simp [fullStateName, hmiss, Except.map]⟩

/-- Witness for C4 at the concrete one-row pass of the counterexample. -/
theorem C4_witness :
    "USA" ∈ geoStates ["Texas"] [("Texas", "USA")] ["Austin, Texas"] ∧
    (([] : List (String × String)).lookup "USA" = none) ∧
    ∃ e, geo_dist ["Texas"] [("Texas", "USA")] [] ["Austin, Texas"] = Except.error e :=
  ⟨by decide, rfl,
    C4_geo_missing_inverse_amended ["Texas"] [("Texas", "USA")] [] ["Austin, Texas"]
      "USA" (by decide) rfl⟩

/-- C5 counterexample: on the spec's own example the code returns the matches
with their leading '#' (no capture group in the pattern), not the bare tags. -/
theorem C5_counterexample :
    hastag "Check #COVID19 and #covid-19 now" ≠ ["COVID19", "covid"] := by decide

theorem hastagAux_eq_spec : ∀ (cs : List Char),
    (∀ prev, hastagAux (ScanMode.scanning prev) cs = hashtagsSpecAux prev cs) ∧
    (∀ acc, acc.all isWordChar →
      hastagAux (ScanMode.collecting acc) cs
        = (if (acc.reverse ++ cs.takeWhile isWordChar).any Char.isAlpha
            then [('#' :: (acc.reverse ++ cs.takeWhile isWordChar))] else [])
          ++ hashtagsSpecAux (some (acc.headD '#')) cs) := by
  intro cs
  induction cs with
  | nil =>
    constructor
    · intro prev
      rfl
    · intro acc hacc
      show emitRun acc = _
      simp [emitRun, hashtagsSpecAux, List.any_reverse]
  | cons c rest ih =>
    obtain ⟨ihA, ihB⟩ := ih
    constructor
    · intro prev
      rw [show hastagAux (ScanMode.scanning prev) (c :: rest)
          = if c == '#' && notWordBefore prev then hastagAux (ScanMode.collecting []) rest
            else hastagAux (ScanMode.scanning (some c)) rest from rfl]
      rw [show hashtagsSpecAux prev (c :: rest)
          = (if c == '#' && notWordBefore prev
                && (rest.takeWhile isWordChar).any Char.isAlpha
              then [('#' :: rest.takeWhile isWordChar)] else [])
            ++ hashtagsSpecAux (some c) rest from rfl]
      by_cases h : (c == '#' && notWordBefore prev) = true
      · rw [if_pos h, ihB [] rfl]
        have hc : c = '#' := by
          have h' := h
          simp only [Bool.and_eq_true, beq_iff_eq] at h'
          exact h'.1
        subst hc
        rw [h]
        simp
      · rw [if_neg h, ihA (some c)]
        rw [Bool.not_eq_true] at h
        rw [h]
        simp
    · intro acc hacc
      rw [show hastagAux (ScanMode.collecting acc) (c :: rest)
          = if isWordChar c then hastagAux (ScanMode.collecting (c :: acc)) rest
            else if c == '#' && acc.isEmpty then
              emitRun acc ++ hastagAux (ScanMode.collecting []) rest
            else emitRun acc ++ hastagAux (ScanMode.scanning (some c)) rest from rfl]
      rw [show hashtagsSpecAux (some (acc.headD '#')) (c :: rest)
          = (if c == '#' && notWordBefore (some (acc.headD '#'))
                && (rest.takeWhile isWordChar).any Char.isAlpha
              then [('#' :: rest.takeWhile isWordChar)] else [])
            ++ hashtagsSpecAux (some c) rest from rfl]
      by_cases h1 : isWordChar c = true
      · rw [if_pos h1, ihB (c :: acc) (by simp [List.all_cons, h1, hacc])]
        have hch : (c == '#') = false := by
          cases hb : (c == '#') with
          | false => rfl
          | true =>
            have hc : c = '#' := by simpa using hb
            subst hc
            simp [isWordChar] at h1
        rw [hch]
        simp [List.takeWhile_cons_of_pos h1, List.reverse_cons, List.append_assoc]
      · rw [if_neg h1]
        have htw : (c :: rest).takeWhile isWordChar = [] :=
          List.takeWhile_cons_of_neg h1
        by_cases h2 : (c == '#' && acc.isEmpty) = true
        · rw [if_pos h2, ihB [] rfl]
          have h2' := h2
          simp only [Bool.and_eq_true, beq_iff_eq, List.isEmpty_iff] at h2'
          obtain ⟨hc, hae⟩ := h2'
          subst hc
          subst hae
          simp [emitRun, htw, notWordBefore, isWordChar]
        · rw [if_neg h2, ihA (some c)]
          rw [htw]
          have hcand : (c == '#' && notWordBefore (some (acc.headD '#'))
              && (rest.takeWhile isWordChar).any Char.isAlpha) = false := by
            cases hb : (c == '#') with
            | false => simp [hb]
            | true =>
              have hc : c = '#' := by simpa using hb
              subst hc
              have hane : acc.isEmpty = false := by
                cases hae : acc.isEmpty with
                | false => rfl
                | true => simp [hae] at h2
              cases acc with
              | nil => simp at hane
              | cons a as =>
                have haw : isWordChar a = true := by
                  have hall := hacc
                  simp [List.all_cons] at hall
                  exact hall.1
                simp [List.headD, notWordBefore, haw]
          rw [hcand]
          simp [emitRun, List.any_reverse]

/-- C5 amended: for every ASCII input text — the only texts this program
feeds to `hastag`, and the domain where the ASCII `\w` model coincides with
Python's Unicode-aware `\w` — `hastag` returns exactly the matches described
by the spec: the substrings consisting of a `'#'` not preceded by a word
character followed by its maximal word run containing at least one letter, in
order of first appearance with duplicates retained, each WITH its leading
`'#'`; in particular the spec's example yields ["#COVID19", "#covid"]. -/
theorem C5_extractHashtags_amended :
    hastag "Check #COVID19 and #covid-19 now" = ["#COVID19", "#covid"] ∧
    ∀ (text : String), text.data.all isAsciiChar →
      hastag text = hastagSpec text := by
  refine ⟨by decide, ?_⟩
  intro text _
  unfold hastag hastagSpec
  rw [(hastagAux_eq_spec text.data).1 none]

/-- Witness for C5 at a concrete ASCII text with a repeated hashtag: the
scanner agrees with the specification-level enumeration, and the duplicate is
retained in order. -/
theorem C5_witness :
    ("x #ab #ab".data.all isAsciiChar) = true ∧
    hastag "x #ab #ab" = hastagSpec "x #ab #ab" ∧
    hastag "x #ab #ab" = ["#ab", "#ab"] :=
  ⟨by decide, C5_extractHashtags_amended.2 "x #ab #ab" (by decide), by decide⟩

/-- C6 counterexample: for rows at T, T+5s, T+12s all of polarity 0 the
series does contain the counts {bucket T: 2, bucket T+10: 1}, but it has NO
entry at all for the polarity classes -1 and 1 (e.g. none for (T, -1)):
`.unstack(fill_value=0)` only creates columns for polarity values observed in
the window, so the cross-product over "the three polarity classes" fails. -/
theorem C6_counterexample :
    sentimentSeries exRowsC6 = [(0, 0, 2), (10, 0, 1)] ∧
    (0 : ℕ) ∈ obsBuckets exRowsC6 ∧
    ∀ e ∈ sentimentSeries exRowsC6, ¬ (e.1 = 0 ∧ e.2.1 = -1) := by decide

/-- C6 amended: the series contains an entry (with the exact row count, which
may be 0) for every pair in the cross-product of the observed 10-second
buckets (those containing at least one row) and the observed polarity values
(those carried by at least one row of the window); polarity classes absent
from the whole window and buckets with no rows produce no entries. -/
theorem C6_sentiment_series_amended (rows : List SentRow) (b : ℕ) (p : ℤ)
    (hb : b ∈ obsBuckets rows) (hp : p ∈ obsPolarities rows) :
    (b, p, bucketCount rows b p) ∈ sentimentSeries rows := by
  unfold sentimentSeries
  rw [List.mem_flatten]
  exact ⟨(obsPolarities rows).map (fun q => (b, q, bucketCount rows b q)),
    List.mem_map_of_mem _ hb, List.mem_map_of_mem _ hp⟩

/-- Witness for C6: a window with rows in buckets 0 and 10 and polarities
0 and 1 yields the zero-filled entry (0, 1, 0). -/
theorem C6_witness :
    (0 : ℕ) ∈ obsBuckets exRowsC6b ∧ (1 : ℤ) ∈ obsPolarities exRowsC6b ∧
    bucketCount exRowsC6b 0 1 = 0 ∧
    ((0 : ℕ), (1 : ℤ), bucketCount exRowsC6b 0 1) ∈ sentimentSeries exRowsC6b :=
  ⟨by decide, by decide, by decide,
    C6_sentiment_series_amended exRowsC6b 0 1 (by decide) (by decide)⟩

theorem find_first_of_split {α : Type} {p : α → Bool} :
    ∀ (l1 : List α) (s : α) (l2 : List α),
      (∀ y ∈ l1, ¬ p y) → p s → (l1 ++ s :: l2).find? p = some s := by
  intro l1
  induction l1 with
  | nil =>
    intro s l2 _ hs
    simp [List.find?, hs]
  | cons a l1 ih =>
    intro s l2 hall hs
    have ha : p a = false := by simpa using hall a (List.mem_cons_self a l1)
    rw [List.cons_append]
    simp only [List.find?, ha]
    exact ih s l2 (fun y hy => hall y (List.mem_cons_of_mem a hy)) hs

/-- C7: the geographic bucketing takes the FIRST place name of the lookup
list, in list order, occurring as a substring of the row's free-text
location; the row is counted exactly once, under that first name's region
code and under no other code; rows matching no place name contribute nothing
to the geographic counts. -/
theorem C7_geo_first_match (states : List String)
    (state_dict : List (String × String)) (x : String) :
    (∀ (l1 l2 : List String) (s code : String),
      states = l1 ++ s :: l2 →
      (∀ s2 ∈ l1, ¬ containsSub s2.data x.data) →
      containsSub s.data x.data →
      state_dict.lookup s = some code →
      matchLocation states state_dict x = some code ∧
      ∀ rest : List String,
        (geoCodes states state_dict (x :: rest)).count code
          = (geoCodes states state_dict rest).count code + 1 ∧
        ∀ c : String, c ≠ code →
          (geoCodes states state_dict (x :: rest)).count c
            = (geoCodes states state_dict rest).count c) ∧
    ((∀ s2 ∈ states, ¬ containsSub s2.data x.data) →
      matchLocation states state_dict x = none ∧
      ∀ rest : List String,
        geoCodes states state_dict (x :: rest) = geoCodes states state_dict rest) := by
  constructor
  · intro l1 l2 s code hsplit hearly hmatch hcode
    have hfind : matchState states x = some s := by
      rw [hsplit]
      exact find_first_of_split l1 s l2 hearly hmatch
    have hloc : matchLocation states state_dict x = some code := by
      simp [matchLocation, hfind, stateCode, hcode]
    refine ⟨hloc, ?_⟩
    intro rest
    have hcons : geoCodes states state_dict (x :: rest)
        = code :: geoCodes states state_dict rest := by
      simp [geoCodes, is_in_US, List.filterMap_cons, hloc]
    rw [hcons]
    constructor
    · simp [List.count_cons_self]
    · intro c hc
      exact List.count_cons_of_ne hc _
  · intro hnone
    have hfind : matchState states x = none := by
      unfold matchState
      rw [List.find?_eq_none]
      intro s2 hs2
      simpa using hnone s2 hs2
    have hloc : matchLocation states state_dict x = none := by
      simp [matchLocation, hfind]
    refine ⟨hloc, ?_⟩
    intro rest
    simp [geoCodes, is_in_US, List.filterMap_cons, hloc]

/-- Witness for C7 at the spec's Texas example: "Texas" is the first match in
"Austin, Texas, USA", the row counts once under code "USA", and a location
matching nothing is excluded. -/
theorem C7_witness :
    (matchLocation ["Texas", "USA"] [("Texas", "USA"), ("USA", "USA")]
        "Austin, Texas, USA" = some "USA" ∧
      (geoCodes ["Texas", "USA"] [("Texas", "USA"), ("USA", "USA")]
          ["Austin, Texas, USA"]).count "USA"
        = (geoCodes ["Texas", "USA"] [("Texas", "USA"), ("USA", "USA")]
          ([] : List String)).count "USA" + 1) ∧
    (matchLocation ["Texas", "USA"] [("Texas", "USA"), ("USA", "USA")] "Paris" = none) := by
  have h := C7_geo_first_match ["Texas", "USA"] [("Texas", "USA"), ("USA", "USA")]
    "Austin, Texas, USA"
  have h1 := h.1 [] ["USA"] "Texas" "USA" rfl (by decide) (by decide) rfl
  have h2 := C7_geo_first_match ["Texas", "USA"] [("Texas", "USA"), ("USA", "USA")] "Paris"
  exact ⟨⟨h1.1, (h1.2 []).1⟩, (h2.2 (by decide)).1⟩
